import Mathlib

/-!
Verification of the splatlog verbosity-to-level subsystem against its
natural-language specification.

Shallow embedding of:
* `splatlog/lib/collections/classifier.py` (`Classifier`)
* `splatlog/typings.py` (`is_verbosity`, `as_verbosity`)
* `splatlog/levels.py` (`get_level_value`, `is_level_name`, `is_level_value`)
* `splatlog/locking.py` (`lock`)

Python values that the code inspects dynamically are modelled by the small
inductive `PyObj`.  A Python collection used as a classifier rule key is
modelled by an abstract type `C` together with a best-effort membership test
`C → K → Option Bool` (`none` models a `TypeError` raised by the `in`
operator) and, for iteration, an element listing `C → List K`.
-/

namespace Splatlog

/-! ## Classifier (`splatlog/lib/collections/classifier.py`)

`Classifier._rules` is a list of `(collection, value)` pairs kept in
insertion order.  Queries walk the list; a `TypeError` from a rule's
membership test (modelled by `mem rule key = none`) is caught and the rule
is skipped.
-/

section Classifier

variable {C K V : Type}

/-- Embedding of `Classifier.__contains__`: first rule whose membership
test returns `True` wins; a test that returns `False` or raises
`TypeError` (`none`) falls through to the next rule. -/
def containsElem (mem : C → K → Option Bool) : List (C × V) → K → Bool
  | [], _ => false
  | (rule, _) :: rest, item =>
    match mem rule item with
    | some true => true
    | _ => containsElem mem rest item

/-- Embedding of `Classifier.__getitem__`: returns the value of the first
rule whose collection contains the key; `none` models the final
`raise KeyError(key)`. -/
def getItem (mem : C → K → Option Bool) : List (C × V) → K → Option V
  | [], _ => none
  | (rule, cls) :: rest, key =>
    match mem rule key with
    | some true => some cls
    | _ => getItem mem rest key

/-- Embedding of `Classifier.classify`, which just delegates to
`self[item]`. -/
def classify (mem : C → K → Option Bool) (rules : List (C × V)) (item : K) :
    Option V :=
  getItem mem rules item

/-- Embedding of `Classifier.__iter__`: `yield from rule` for each rule in
order, with `elems` giving a collection's iteration sequence. -/
def iterElems (elems : C → List K) : List (C × V) → List K
  | [] => []
  | (rule, _) :: rest => elems rule ++ iterElems elems rest

/-- Embedding of `Classifier.has_rule`: `any(k == key for k, _ in
self._rules)` — exact equality on the stored collection, not element
membership. -/
def hasRule [BEq C] (rules : List (C × V)) (key : C) : Bool :=
  rules.any (fun r => r.1 == key)

end Classifier

/-- Membership test of a concrete Python list collection (always
supported): `item in [..]`. -/
def listMem : List Nat → Nat → Option Bool :=
  fun c k => some (c.contains k)

/-! ## Python values and `splatlog/typings.py` -/

/-- Dynamic Python value as far as the verified functions inspect it:
an `int`, a `str`, or some other object (the doctests use a `list`).
Python `bool`s are `int` instances and behave as their numeric value in
the verified code, so they need no separate constructor. -/
inductive PyObj where
  | int (n : Int)
  | str (s : String)
  | list (xs : List PyObj)

/-- Embedding of `typings.is_verbosity`: `isinstance(x, int) and x >= 0
and x < sys.maxsize`.  `maxsize` is the implementation-defined
`sys.maxsize` (2^63 - 1 on CPython/64-bit), kept as a parameter. -/
def is_verbosity (maxsize : Int) : PyObj → Bool
  | .int n => decide (0 ≤ n) && decide (n < maxsize)
  | _ => false

/-- Embedding of `typings.as_verbosity`: returns `x` unchanged when
`is_verbosity(x)`, otherwise raises `TypeError` (modelled by
`Except.error`). -/
def as_verbosity (maxsize : Int) (x : PyObj) : Except String PyObj :=
  if is_verbosity maxsize x then .ok x
  else
    .error
      "Expected verbosity to be non-negative integer less than `sys.maxsize`"

/-! ## Levels (`splatlog/levels.py`)

The stdlib `logging` name registry `logging._nameToLevel` is modelled as an
association list `List (String × Int)` looked up with `List.find?`
(dictionary keys are unique), and `logging._levelToName` as
`List (Int × String)`.  `str.upper` / `str.lower` are modelled over the
ASCII fragment, which is where they agree with Python and where every
stdlib level name lives.
-/

/-- ASCII upper-casing of one character, as `str.upper` acts on ASCII. -/
def upChar (c : Char) : Char :=
  if 'a' ≤ c ∧ c ≤ 'z' then Char.ofNat (c.toNat - 32) else c

/-- ASCII lower-casing of one character, as `str.lower` acts on ASCII. -/
def lowChar (c : Char) : Char :=
  if 'A' ≤ c ∧ c ≤ 'Z' then Char.ofNat (c.toNat + 32) else c

/-- ASCII `str.upper`. -/
def upStr (s : String) : String := String.mk (s.data.map upChar)

/-- ASCII `str.lower`, used only to state that two strings are case
variants of each other. -/
def lowStr (s : String) : String := String.mk (s.data.map lowChar)

/-- Embedding of Python `str.isdigit` on ASCII: non-empty and all
characters are digits. -/
def isDigitStr (s : String) : Bool :=
  !s.data.isEmpty && s.data.all Char.isDigit

/-- Decimal value of a digit string, as Python `int(s)`. -/
def parseInt (s : String) : Int :=
  (s.data.foldl (fun a c => a * 10 + (c.toNat - 48)) 0 : Nat)

/-- Dictionary lookup in the modelled `logging._nameToLevel`. -/
def lookupLevel (reg : List (String × Int)) (s : String) : Option Int :=
  (reg.find? (fun p => p.1 == s)).map (·.2)

/-- Embedding of `levels.get_level_value`.  An `int` is returned as-is; a
digit string is parsed; otherwise the string is looked up as a level name,
then its upper-case form is, and failing both a `TypeError` is raised;
any other value raises `TypeError`. -/
def getLevelValue (reg : List (String × Int)) : PyObj → Except String Int
  | .int n => .ok n
  | .str s =>
    if isDigitStr s then .ok (parseInt s)
    else
      match lookupLevel reg s with
      | some v => .ok v
      | none =>
        match lookupLevel reg (upStr s) with
        | some v => .ok v
        | none =>
          .error
            "Neither given value or upper-case version are valid level names"
  | .list _ => .error "Expected `level` to be `int | str`"

/-- Embedding of `levels.is_level_name` with the default
`case_sensitive=False`: non-strings are rejected, the name is upper-cased
and looked up in `logging.getLevelNamesMapping()`. -/
def is_level_name_model (reg : List (String × Int)) : PyObj → Bool
  | .str s => (lookupLevel reg (upStr s)).isSome
  | _ => false

/-- Embedding of `levels.is_level_value`: an `int` is a level value when
`logging.getLevelName(value)` does not fall through to `"Level {value}"`,
i.e. when the value is registered in `logging._levelToName`. -/
def is_level_value_model (levelToName : List (Int × String)) : PyObj → Bool
  | .int n => ((levelToName.find? (fun p => p.1 == n)).map (·.2)).isSome
  | _ => false

/-! ## Locking (`splatlog/locking.py`) -/

/-- Result of `locking.lock()`: either the `logging` module's internal
lock, or the module-level `contextlib.nullcontext` fallback, whose enter
and exit do nothing. -/
inductive LockContext (L : Type) where
  | real (l : L)
  | nullContext

/-- Embedding of `locking.lock`: `getattr(logging, "_lock", None)` is the
`attr` argument (`none` when the attribute is missing), `truthy` is
Python truthiness; a present and truthy attribute is returned, anything
else yields the shared null context. -/
def lock {L : Type} (attr : Option L) (truthy : L → Bool) : LockContext L :=
  match attr with
  | some l => if truthy l then .real l else .nullContext
  | none => .nullContext

/-- Whether a `LockContext` actually excludes concurrent holders: the null
context never does. -/
def providesMutualExclusion {L : Type} : LockContext L → Bool
  | .real _ => true
  | .nullContext => false

/-! ## Theorems -/

/-- C1: for every classifier and key, `classify` coincides with the indexing
lookup `__getitem__`, and the lookup returns the value of the first rule, in
insertion order, whose collection contains the key — rules whose membership
test raises (`none`) or returns `False` are treated as not containing it.
When no rule matches both sides are `none`, so in particular whenever some
rule contains the key the first such rule's value is returned. -/
theorem classify_first_matching_rule {C K V : Type}
    (mem : C → K → Option Bool) (rules : List (C × V)) (key : K) :
    classify mem rules key = getItem mem rules key ∧
    getItem mem rules key =
      (rules.find? (fun r => mem r.1 key == some true)).map Prod.snd := by
  refine ⟨rfl, ?_⟩
  induction rules with
  | nil => simp [getItem]
  | cons r rest ih =>
    obtain ⟨c, v⟩ := r
    rw [getItem, List.find?]
    cases h : mem c key with
    | none => simp [h, ih]
    | some b => cases b <;> simp [h, ih]

/-- C2: `contains` is the non-failing form of `classify`: it is `true`
exactly when the lookup succeeds, and the lookup fails (`KeyError`,
modelled by `none`) exactly when no rule's collection contains the key. -/
theorem classify_fails_iff_no_rule_contains {C K V : Type}
    (mem : C → K → Option Bool) (rules : List (C × V)) (key : K) :
    (containsElem mem rules key = true ↔
      (getItem mem rules key).isSome = true) ∧
    (getItem mem rules key = none ↔
      ¬ ∃ r ∈ rules, mem r.1 key = some true) := by
  induction rules with
  | nil => simp [containsElem, getItem]
  | cons r rest ih =>
    obtain ⟨c, v⟩ := r
    rw [containsElem, getItem]
    cases h : mem c key with
    | none => simpa [h] using ih
    | some b =>
      cases b
      · simpa [h] using ih
      · simp [h]

/-- C3: a rule whose collection does not support a membership test for the
queried key (`mem r.1 key = none`, the caught `TypeError`) is silently
skipped: both query forms give the same result as they would over only the
rules whose membership test succeeds, and the query never fails because of
such a rule. -/
theorem query_skips_unsupported_rules {C K V : Type}
    (mem : C → K → Option Bool) (rules : List (C × V)) (key : K) :
    getItem mem rules key =
      getItem mem (rules.filter (fun r => (mem r.1 key).isSome)) key ∧
    containsElem mem rules key =
      containsElem mem (rules.filter (fun r => (mem r.1 key).isSome)) key := by
  induction rules with
  | nil => simp
  | cons r rest ih =>
    obtain ⟨c, v⟩ := r
    rw [getItem, containsElem]
    cases h : mem c key with
    | none =>
      simp only [List.filter_cons, h, Option.isSome_none]
      simpa [h] using ih
    | some b =>
      simp only [List.filter_cons, h, Option.isSome_some, if_true]
      rw [getItem, containsElem, h]
      cases b <;> simp [ih]

/-- C4: the verbosity validator accepts exactly the integers `0 ≤ n`
strictly below the implementation-defined maximum (`sys.maxsize`); the
cast returns exactly those values unchanged and rejects every other value
(negative, at-or-above the maximum, or not an integer) with a synchronous
`TypeError`.  Both functions are pure, so no state is changed on
rejection. -/
theorem as_verbosity_accepts_exactly_bounded_nonneg
    (maxsize : Int) (x : PyObj) :
    (is_verbosity maxsize x = true ↔
      ∃ n : Int, x = .int n ∧ 0 ≤ n ∧ n < maxsize) ∧
    (as_verbosity maxsize x = .ok x ↔ is_verbosity maxsize x = true) ∧
    ((∃ e, as_verbosity maxsize x = .error e) ↔
      is_verbosity maxsize x = false) := by
  refine ⟨?_, ?_, ?_⟩
  · cases x <;> simp [is_verbosity]
  · rw [as_verbosity]
    by_cases h : is_verbosity maxsize x = true
    · simp [h]
    · simp only [Bool.not_eq_true] at h
      simp [h]
  · rw [as_verbosity]
    by_cases h : is_verbosity maxsize x = true
    · simp [h]
    · simp only [Bool.not_eq_true] at h
      simp [h]

/-- C5 (counterexample): level-name lookup is not case-insensitive for
every registered name.  With the name `"lucky"` registered at value `8`
(as `logging.addLevelName(8, "lucky")` permits), its case variant
`"LUCKY"` fails to convert — the exact lookup misses and the upper-cased
retry looks up `"LUCKY"` again — even though converting the registered
name itself succeeds. -/
theorem get_level_value_lowercase_name_counterexample :
    lookupLevel [("lucky", (8 : Int))] "lucky" = some 8 ∧
    lowStr "LUCKY" = lowStr "lucky" ∧
    getLevelValue [("lucky", (8 : Int))] (.str "lucky") = .ok 8 ∧
    getLevelValue [("lucky", (8 : Int))] (.str "LUCKY") =
      .error "Neither given value or upper-case version are valid level names" :=
  ⟨rfl, rfl, rfl, rfl⟩

/-- C5 (amended): for every registered level name that is its own
upper-case form (as all stdlib names are) and is not a digit string, every
non-digit case variant of it — any string whose upper-cased form is the
name, provided the variant is not itself registered as a different name —
converts to the same numeric value as the registered name itself. -/
theorem get_level_value_case_variant_of_upper_name
    (reg : List (String × Int)) (name variant : String) (v : Int)
    (hreg : lookupLevel reg name = some v)
    (hup : upStr name = name)
    (hnd : isDigitStr name = false)
    (hvd : isDigitStr variant = false)
    (hvar : upStr variant = upStr name)
    (hshadow : lookupLevel reg variant = none ∨ variant = name) :
    getLevelValue reg (.str variant) = .ok v ∧
    getLevelValue reg (.str name) = .ok v := by
  rw [hup] at hvar
  have hname : getLevelValue reg (.str name) = .ok v := by
    simp [getLevelValue, hnd, hreg]
  refine ⟨?_, hname⟩
  rcases hshadow with h | h
  · simp [getLevelValue, hvd, h, hvar, hreg]
  · rw [h]; exact hname

/-- C5 (witness): the amended theorem at the stdlib registration
`"DEBUG" ↦ 10` and the case variant `"Debug"`. -/
theorem get_level_value_case_variant_witness :
    getLevelValue [("DEBUG", (10 : Int))] (.str "Debug") = .ok 10 ∧
    getLevelValue [("DEBUG", (10 : Int))] (.str "DEBUG") = .ok 10 :=
  get_level_value_case_variant_of_upper_name
    [("DEBUG", (10 : Int))] "DEBUG" "Debug" 10 rfl rfl rfl rfl rfl (Or.inl rfl)

/-- C6 (counterexample): an integer that is neither a registered level
name nor a registered level value is not rejected — `get_level_value`
returns any `int` unchanged (its docstring documents exactly this), so an
unknown level can pass conversion. -/
theorem get_level_value_unregistered_int_counterexample :
    is_level_name_model [("DEBUG", (10 : Int))] (.int 123) = false ∧
    is_level_value_model [((10 : Int), "DEBUG")] (.int 123) = false ∧
    getLevelValue [("DEBUG", (10 : Int))] (.int 123) = .ok 123 :=
  ⟨rfl, rfl, rfl⟩

/-- C6 (amended): conversion fails with an error exactly when the input is
a non-digit string registered under neither its exact nor its upper-cased
form, or is neither an `int` nor a `str`.  Integers — registered or not —
and digit strings always convert successfully. -/
theorem get_level_value_error_characterization
    (reg : List (String × Int)) (x : PyObj) :
    (∃ e, getLevelValue reg x = .error e) ↔
      (match x with
       | .int _ => False
       | .str s => isDigitStr s = false ∧ lookupLevel reg s = none ∧
           lookupLevel reg (upStr s) = none
       | .list _ => True) := by
  cases x with
  | int n => simp [getLevelValue]
  | list xs => exact ⟨fun _ => trivial, fun _ => ⟨_, rfl⟩⟩
  | str s =>
    by_cases hd : isDigitStr s = true
    · simp [getLevelValue, hd]
    · simp only [Bool.not_eq_true] at hd
      cases h1 : lookupLevel reg s with
      | some w => simp [getLevelValue, hd, h1]
      | none =>
        cases h2 : lookupLevel reg (upStr s) with
        | some w => simp [getLevelValue, hd, h1, h2]
        | none => simp [getLevelValue, hd, h1, h2]

/-- C7: `has_rule` holds exactly when some stored rule's key collection
equals the candidate, and it is never decided by element membership: there
is a classifier and a candidate collection every element of which is
classifiable while `has_rule` is still `false`. -/
theorem has_rule_exact_equality :
    (∀ (C V : Type) (inst : BEq C) (rules : List (C × V)) (key : C),
      @hasRule C V inst rules key = true ↔ ∃ r ∈ rules, (r.1 == key) = true) ∧
    (∃ (rules : List (List Nat × String)) (cand : List Nat),
      (∀ x ∈ cand, containsElem listMem rules x = true) ∧
      hasRule rules cand = false) := by
  constructor
  · intro C V inst rules key
    simp [hasRule, List.any_eq_true]
  · exact ⟨[([1, 2], "a")], [1], by decide, by decide⟩

/-- C8: iterating a classifier yields exactly the concatenation, in rule
insertion order, of each rule's element sequence; consequently every
element reachable through any rule appears, and an element covered by
several rules appears once per covering rule (its occurrence count is the
sum of its per-rule counts). -/
theorem iteration_concatenates_rule_elements {C K V : Type} [DecidableEq K]
    (elems : C → List K) (rules : List (C × V)) :
    iterElems elems rules = (rules.map (fun r => elems r.1)).flatten ∧
    ∀ x : K, (iterElems elems rules).count x =
      ((rules.map (fun r => (elems r.1).count x)).sum) := by
  induction rules with
  | nil => simp [iterElems]
  | cons r rest ih =>
    obtain ⟨c, v⟩ := r
    rw [iterElems]
    refine ⟨by simp [ih.1], fun x => ?_⟩
    simp [List.count_append, ih.2 x]

/-- C10: the lock accessor returns the `logging` module's internal lock
exactly when that attribute exists and is truthy; in every other case it
returns the no-op null context, under which a guarded mutation runs with
no mutual exclusion at all. -/
theorem lock_fallback_null_context {L : Type}
    (attr : Option L) (truthy : L → Bool) :
    (∀ l : L, lock attr truthy = .real l ↔ attr = some l ∧ truthy l = true) ∧
    (lock attr truthy = .nullContext ↔
      ¬ ∃ l, attr = some l ∧ truthy l = true) ∧
    (providesMutualExclusion (lock attr truthy) = false ↔
      ¬ ∃ l, attr = some l ∧ truthy l = true) := by
  cases attr with
  | none => simp [lock, providesMutualExclusion]
  | some a =>
    by_cases h : truthy a = true
    · refine ⟨fun l => ?_, ?_, ?_⟩
      · simp only [lock, h, if_true]
        constructor
        · rintro ⟨⟩; exact ⟨rfl, h⟩
        · rintro ⟨hs, _⟩; cases hs; rfl
      · simp [lock, h, providesMutualExclusion]
      · simp [lock, h, providesMutualExclusion]
    · simp only [Bool.not_eq_true] at h
      refine ⟨fun l => ?_, ?_, ?_⟩
      · simp [lock, h]
        rintro rfl
        simp [h]
      · simp [lock, h]
      · simp [lock, h, providesMutualExclusion]

end Splatlog
